import Mathlib

/-!
Verification of the lightauth middleware (Go) against its specification.

The Go source is shallowly embedded: Go maps become association lists
(`List (String × _)`, `Set` replaces the first binding or appends),
byte slices become `List Nat` (each element < 256), `time.Time` and
`time.Duration` become `Int` nanoseconds, and the external collaborators
(the Lightning node, the persistence layer, the wall clock, random token
generation) become explicit parameters.  Fallible steps return `Option`.
-/

namespace Lightauth

/-- Bytes of a Go byte slice, one `Nat < 256` per byte. -/
abbrev Bytes := List Nat

/-! ## Association lists standing for Go maps -/

/-- Go map read `m[k]`. -/
def alookup {α : Type} : List (String × α) → String → Option α
  | [], _ => none
  | (k, v) :: rest, key => if k = key then some v else alookup rest key

/-- Go map write `m[k] = v`: replace the binding if present, else append. -/
def aset {α : Type} : List (String × α) → String → α → List (String × α)
  | [], key, v => [(key, v)]
  | (k, w) :: rest, key, v =>
      if k = key then (key, v) :: rest else (k, w) :: aset rest key v

/-! ## Hex codec (Go `encoding/hex`) -/

/-- Lower-case hex digit for a nibble. -/
def hexDigit (n : Nat) : Char :=
  if n < 10 then Char.ofNat (48 + n) else Char.ofNat (87 + n)

/-- Go `hex.EncodeToString`: two lower-case digits per byte. -/
def hexEncode (b : Bytes) : String :=
  String.mk (b.foldr (fun x acc => hexDigit ((x / 16) % 16) :: hexDigit (x % 16) :: acc) [])

/-- Value of one hex digit; Go accepts both cases. -/
def hexVal (c : Char) : Option Nat :=
  let n := c.toNat
  if 48 ≤ n ∧ n ≤ 57 then some (n - 48)
  else if 97 ≤ n ∧ n ≤ 102 then some (n - 87)
  else if 65 ≤ n ∧ n ≤ 70 then some (n - 55)
  else none

def hexDecodeList : List Char → Option Bytes
  | [] => some []
  | [_] => none
  | a :: b :: rest => do
      let hi ← hexVal a
      let lo ← hexVal b
      let r ← hexDecodeList rest
      pure ((16 * hi + lo) :: r)

/-- Go `hex.DecodeString`: fails on odd length or a non-hex character. -/
def hexDecode (s : String) : Option Bytes := hexDecodeList s.data

/-! ## SHA-256 (Go `crypto/sha256`), on `Nat` words reduced mod 2^32 -/

def pow32 : Nat := 4294967296

def add32 (a b : Nat) : Nat := (a + b) % pow32

def rotr32 (x n : Nat) : Nat := ((x >>> n) ||| ((x <<< (32 - n)) % pow32)) % pow32

def shaCh (x y z : Nat) : Nat := (x &&& y) ^^^ ((x ^^^ 4294967295) &&& z)

def shaMaj (x y z : Nat) : Nat := (x &&& y) ^^^ (x &&& z) ^^^ (y &&& z)

def bigSigma0 (x : Nat) : Nat := (rotr32 x 2) ^^^ (rotr32 x 13) ^^^ (rotr32 x 22)

def bigSigma1 (x : Nat) : Nat := (rotr32 x 6) ^^^ (rotr32 x 11) ^^^ (rotr32 x 25)

def smallSigma0 (x : Nat) : Nat := (rotr32 x 7) ^^^ (rotr32 x 18) ^^^ (x >>> 3)

def smallSigma1 (x : Nat) : Nat := (rotr32 x 17) ^^^ (rotr32 x 19) ^^^ (x >>> 10)

def shaK : List Nat :=
  [1116352408, 1899447441, 3049323471, 3921009573, 961987163,
   1508970993, 2453635748, 2870763221, 3624381080, 310598401,
   607225278, 1426881987, 1925078388, 2162078206, 2614888103,
   3248222580, 3835390401, 4022224774, 264347078, 604807628,
   770255983, 1249150122, 1555081692, 1996064986, 2554220882,
   2821834349, 2952996808, 3210313671, 3336571891, 3584528711,
   113926993, 338241895, 666307205, 773529912, 1294757372,
   1396182291, 1695183700, 1986661051, 2177026350, 2456956037,
   2730485921, 2820302411, 3259730800, 3345764771, 3516065817,
   3600352804, 4094571909, 275423344, 430227734, 506948616,
   659060556, 883997877, 958139571, 1322822218, 1537002063,
   1747873779, 1955562222, 2024104815, 2227730452, 2361852424,
   2428436474, 2756734187, 3204031479, 3329325298]

def shaH0 : List Nat :=
  [1779033703, 3144134277, 1013904242, 2773480762, 1359893119,
   2600822924, 528734635, 1541459225]

/-- Big-endian 8-byte rendering of the bit length. -/
def lenBytes (bitLen : Nat) : Bytes :=
  [(bitLen >>> 56) % 256, (bitLen >>> 48) % 256, (bitLen >>> 40) % 256, (bitLen >>> 32) % 256,
   (bitLen >>> 24) % 256, (bitLen >>> 16) % 256, (bitLen >>> 8) % 256, bitLen % 256]

/-- SHA-256 padding: 0x80, zeros, 64-bit big-endian bit length. -/
def shaPad (msg : Bytes) : Bytes :=
  let len := msg.length
  let zeros := (64 - ((len + 9) % 64)) % 64
  msg ++ [128] ++ List.replicate zeros 0 ++ lenBytes (8 * len)

def chunkGo {α : Type} (n : Nat) : Nat → List α → List (List α)
  | 0, _ => []
  | _ + 1, [] => []
  | fuel + 1, l => l.take n :: chunkGo n fuel (l.drop n)

/-- Split a list into chunks of `n` elements. -/
def chunks {α : Type} (n : Nat) (l : List α) : List (List α) := chunkGo n l.length l

/-- One big-endian 32-bit word from four bytes. -/
def wordOfBytes : Bytes → Nat
  | [a, b, c, d] => ((a * 256 + b) * 256 + c) * 256 + d
  | _ => 0

/-- Big-endian bytes of a 32-bit word. -/
def wordToBytes (w : Nat) : Bytes :=
  [(w >>> 24) % 256, (w >>> 16) % 256, (w >>> 8) % 256, w % 256]

/-- Message schedule: extend 16 words to 64. -/
def extendSched : Nat → Array Nat → Array Nat
  | 0, ws => ws
  | fuel + 1, ws =>
      let i := ws.size
      let w := add32 (add32 (smallSigma1 (ws.getD (i - 2) 0)) (ws.getD (i - 7) 0))
                     (add32 (smallSigma0 (ws.getD (i - 15) 0)) (ws.getD (i - 16) 0))
      extendSched fuel (ws.push w)

/-- One round of the compression function on the state octuple. -/
def shaRound (st : Nat × Nat × Nat × Nat × Nat × Nat × Nat × Nat) (kw : Nat × Nat) :
    Nat × Nat × Nat × Nat × Nat × Nat × Nat × Nat :=
  let (a, b, c, d, e, f, g, h) := st
  let t1 := add32 (add32 (add32 h (bigSigma1 e)) (add32 (shaCh e f g) kw.1)) kw.2
  let t2 := add32 (bigSigma0 a) (shaMaj a b c)
  (add32 t1 t2, a, b, c, add32 d t1, e, f, g)

/-- Compress one 64-byte block into the running hash. -/
def shaCompress (hs : List Nat) (block : Bytes) : List Nat :=
  let ws0 := ((chunks 4 block).map wordOfBytes).toArray
  let ws := extendSched 48 ws0
  match hs with
  | [h0, h1, h2, h3, h4, h5, h6, h7] =>
      let (a, b, c, d, e, f, g, h) :=
        (shaK.zip ws.toList).foldl shaRound (h0, h1, h2, h3, h4, h5, h6, h7)
      [add32 h0 a, add32 h1 b, add32 h2 c, add32 h3 d,
       add32 h4 e, add32 h5 f, add32 h6 g, add32 h7 h]
  | other => other

/-- SHA-256 of a byte string (`sha256.New` / `Sum` in Go). -/
def sha256 (msg : Bytes) : Bytes :=
  (((chunks 64 (shaPad msg)).foldl shaCompress shaH0).map wordToBytes).flatten

/-! ## Decimal integers (Go `strconv.Atoi`, `strconv.Itoa`) -/

def digitsVal : List Char → Option Nat
  | [] => none
  | l => l.foldl (fun acc c =>
      match acc with
      | none => none
      | some n => if 48 ≤ c.toNat ∧ c.toNat ≤ 57 then some (10 * n + (c.toNat - 48)) else none)
      (some 0)

/-- Go `strconv.Atoi`: optional sign followed by decimal digits. -/
def parseIntGo (s : String) : Option Int :=
  match s.data with
  | [] => none
  | c :: rest =>
      if c = Char.ofNat 45 then (digitsVal rest).map (fun n => -(n : Int))
      else (digitsVal s.data).map (fun n => (n : Int))

/-- Go `strconv.Itoa`. -/
def itoa (n : Int) : String := toString n

/-! ## Time

`time.Time` and `time.Duration` are both `Int` nanoseconds.  Go constants:
`time.Millisecond = 1e6`, `time.Second = 1e9`, `time.Minute = 6e10`. -/

def goMillisecond : Int := 1000000
def goSecond : Int := 1000000000
def goMinute : Int := 60000000000

/-- The `switch Period` shared by `updateInvoice` (server) and
`Path.updateBalance` (client): unknown strings default to a millisecond. -/
def periodOf (period : String) : Int :=
  if period = "millisecond" then goMillisecond
  else if period = "second" then goSecond
  else if period = "minute" then goMinute
  else goMillisecond

/-- Models Go `t.Format("2006-01-02T15:04:05Z07:00")` abstractly as an
injective rendering of the timestamp; the claims under proof never inspect
the text of a timestamp, only carry it between headers. -/
def formatRFC3339 (t : Int) : String := toString t

/-- Models Go `time.Parse("2006-01-02T15:04:05Z07:00", s)` as the inverse of
`formatRFC3339`. -/
def parseRFC3339 (s : String) : Option Int := parseIntGo s

/-! ## Data model (`invoice.go`, `server.go`, `client.go`, `setup.go`) -/

/-- Go `RouteInfo` of `setup.go`. -/
structure RouteInfo where
  Name : String
  Fee : Int
  MaxInvoices : Int
  Mode : String
  Period : String
deriving Repr, DecidableEq

/-- Go `Invoice` of `invoice.go`, plus the `ExpirationTime` field that the
current `server.go` and `client.go` construct (`Invoice{..., ExpirationTime:
expirationTime}`); the copy of `invoice.go` in the repository snapshot
predates that field.  `PreImage : Option Bytes` distinguishes a nil Go slice
(`none`) from an assigned one.  The `Client`/`Path` back-references and the
mutex are not part of the value; the policy fields they stand for are passed
explicitly. -/
structure Invoice where
  PaymentRequest : String
  PaymentHash : Bytes
  Fee : Int
  Settled : Bool
  PreImage : Option Bytes
  Claimed : Bool
  ExpirationTime : Int
deriving Repr, DecidableEq

/-- Go `Invoice.settle` (invoice.go): set `Settled`, store the pre-image.
The persistence call `i.save()` is modelled as succeeding. -/
def Invoice.settle (i : Invoice) (preImage : Bytes) : Invoice :=
  { i with Settled := true, PreImage := some preImage }

def Invoice.isSettled (i : Invoice) : Bool := i.Settled

def Invoice.isClaimed (i : Invoice) : Bool := i.Claimed

/-- Go `Invoice.claim` (invoice.go); `save` modelled as succeeding. -/
def Invoice.claim (i : Invoice) : Invoice := { i with Claimed := true }

/-- Modelled from the spec: `Invoice.isExpired` is referenced by
`ClearRequest` but its body is missing from the snapshot; per the spec an
invoice expires at its expiration timestamp (issued with "an expiration 59
minutes in the future").  `now` is explicit. -/
def Invoice.isExpired (i : Invoice) (now : Int) : Bool := i.ExpirationTime < now

/-- Go `Client` of `server.go`: the server-side per-token ledger, invoices keyed
by payment request.  `RouteI` carries the fields read through the `Route`
back-reference (`c.Route.Mode`, `.Period`, `.Fee`, `.MaxInvoices`). -/
structure Client where
  Token : String
  ExpirationTime : Int
  Invoices : List (String × Invoice)
  RouteI : RouteInfo
deriving Repr, DecidableEq

/-- Go `Route` of `server.go`: configuration plus clients keyed by token. -/
structure Route where
  Info : RouteInfo
  Clients : List (String × Client)
deriving Repr, DecidableEq

/-- The server-side table `serverStore`, keyed by `METHOD + path`. -/
abbrev ServerStore := List (String × Route)

/-- Go `Path` of `client.go`: the client-side per-route ledger, invoices keyed
by the lower-case hex payment hash. -/
structure Path where
  LocalExpirationTime : Int
  SyncExpirationTime : Int
  Token : String
  Invoices : List (String × Invoice)
  Fee : Int
  TimePeriod : String
  Mode : String
  MaxInvoices : Int
  URL : String
deriving Repr, DecidableEq

/-- The client-side table `clientStore`, keyed by `host + path`. -/
abbrev ClientStore := List (String × Path)

/-! ## HTTP plumbing -/

/-- An incoming request: method, URL path and headers. -/
structure Request where
  Method : String
  URLPath : String
  Headers : List (String × String)
deriving Repr, DecidableEq

/-- Helper `readHeader` (the repository's header helper): first value, or "". -/
def readHeader (h : List (String × String)) (header : String) : String :=
  match alookup h header with
  | none => ""
  | some v => v

/-- The observable effects on an `http.ResponseWriter`: the header map (Go
`Header().Set` keeps mutating it even after the status is written), the
status (first `WriteHeader` wins), the accumulated body, and the request the
wrapped application handler was invoked with (`none` when it never ran). -/
structure ResponseWriter where
  headers : List (String × String)
  status : Option Int
  body : String
  handlerReq : Option Request
deriving Repr, DecidableEq

def ResponseWriter.empty : ResponseWriter :=
  { headers := [], status := none, body := "", handlerReq := none }

def setHeader (w : ResponseWriter) (k v : String) : ResponseWriter :=
  { w with headers := aset w.headers k v }

/-- Go `w.WriteHeader(code)`: only the first call takes effect. -/
def writeHeaderW (w : ResponseWriter) (code : Int) : ResponseWriter :=
  match w.status with
  | some _ => w
  | none => { w with status := some code }

/-- Go `http.Error(w, msg, code)`: content-type headers, status, `msg ++ "\n"`. -/
def httpError (w : ResponseWriter) (msg : String) (code : Int) : ResponseWriter :=
  let w := setHeader w "Content-Type" "text/plain; charset=utf-8"
  let w := setHeader w "X-Content-Type-Options" "nosniff"
  let w := writeHeaderW w code
  { w with body := w.body ++ msg ++ "\n" }

/-- Invoking the wrapped opaque handler: recorded, nothing else modelled. -/
def callHandler (w : ResponseWriter) (r : Request) : ResponseWriter :=
  { w with handlerReq := some r }

/-! ## Server (`server.go`) -/

def iNVALIDTOKEN : String := "Lightauth error: Invalid token"
def tIMEEXPIRED : String :=
  "Lightauth error: Your authorized time has expired, pay up some balances to buy more time"
def iNVALIDCREDENTIALS : String := "Lightauth error: Invalid credentials"
def mISSINGINVOICE : String := "Lightauth error: Missing invoice ID"
def mISSINGPREIMAGE : String := "Lightauth error: Missing pre_image"
def tRYAGAIN : String := "Lightauth error: We can't validate your payment yet, please try again"
def iNVOICEALREADYCLAIMED : String := "Lightauth error: Invoice has already been claimed"
def sOMETHINGWENTWRONG : String := "Lightauth error: Something went wrong"

/-- Go `writeConstantHeaders` (server.go). -/
def writeConstantHeaders (w : ResponseWriter) (rt : RouteInfo) : ResponseWriter :=
  let w := setHeader w "Light-Auth-Name" rt.Name
  let w := setHeader w "Light-Auth-Mode" rt.Mode
  let w := setHeader w "Light-Auth-Fee" (itoa rt.Fee)
  let w := setHeader w "Light-Auth-Max-Invoices" (itoa rt.MaxInvoices)
  if rt.Mode = "time" then setHeader w "Light-Auth-Time-Period" rt.Period else w

/-- One `lightningClient.AddInvoice` answer; the node is modelled as a list
of such answers consumed in order, `none` standing for an RPC error. -/
structure AddInvoiceResp where
  PaymentRequest : String
  RHash : Bytes
deriving Repr, DecidableEq

/-- The loop body of `Client.generateInvoices` (server.go): each iteration
asks the node for an invoice (value = route fee), builds an
`Invoice{PaymentRequest, Settled: false, PaymentHash, ExpirationTime: now +
59 min}` (the Go struct literal leaves `Fee` at its zero value), saves it
(per-invoice save failures skip the map insert; modelled as succeeding) and
inserts it into the client's map.  An RPC error returns immediately with the
invoices generated so far and the error flag. -/
def generateInvoicesGo (now : Int) :
    Nat → List (Option AddInvoiceResp) → List (String × Invoice) →
    List Invoice × List (String × Invoice) × Bool
  | 0, _, m => ([], m, false)
  | _ + 1, [], m => ([], m, true)
  | _ + 1, none :: _, m => ([], m, true)
  | n + 1, some resp :: restNode, m =>
      let i : Invoice :=
        { PaymentRequest := resp.PaymentRequest, PaymentHash := resp.RHash, Fee := 0,
          Settled := false, PreImage := none, Claimed := false,
          ExpirationTime := now + 59 * goMinute }
      let m2 := aset m resp.PaymentRequest i
      let (more, m3, er) := generateInvoicesGo now n restNode m2
      (i :: more, m3, er)

/-- Go `Client.generateInvoices` (server.go). -/
def Client.generateInvoices (c : Client) (numberOfInvoices : Nat)
    (node : List (Option AddInvoiceResp)) (now : Int) : List Invoice × Client × Bool :=
  let (l, m, er) := generateInvoicesGo now numberOfInvoices node c.Invoices
  (l, { c with Invoices := m }, er)

/-- The unsettled invoices of a client, in map order. -/
def unpayedOf (c : Client) : List Invoice :=
  (c.Invoices.map Prod.snd).filter (fun i => !i.isSettled)

/-- Go `Client.getUnpayedInvoices` (server.go): collect the unsettled invoices
and, when fewer than `MaxInvoices`, generate the shortfall; a generation
error discards the collected list (`return []*Invoice{}, err`), though the
partial mutation of the client's map persists. -/
def Client.getUnpayedInvoices (c : Client) (node : List (Option AddInvoiceResp))
    (now : Int) : Option (List Invoice) × Client :=
  let unpayed := unpayedOf c
  if (unpayed.length : Int) < c.RouteI.MaxInvoices then
    let (newInvs, c2, er) :=
      c.generateInvoices (c.RouteI.MaxInvoices - (unpayed.length : Int)).toNat node now
    if er then (none, c2) else (some (unpayed ++ newInvs), c2)
  else (some unpayed, c)

/-- Modelled from the spec: `getInvoicesJSON` and the `JSONInvoice` type are
referenced by `writeClientHeaders`/`getInvoicesFromResponse` but their file
is missing from the snapshot; per spec §6.2 the header carries the JSON
array of objects with `payment_request` and `expiration_time` fields. -/
def jsonInvoiceObj (i : Invoice) : String :=
  "\x7b\"payment_request\":\"" ++ i.PaymentRequest ++ "\",\"expiration_time\":\"" ++
    formatRFC3339 i.ExpirationTime ++ "\"\x7d"

def getInvoicesJSON (l : List Invoice) : String :=
  "[" ++ String.intercalate "," (l.map jsonInvoiceObj) ++ "]"

/-- Go `writeClientHeaders` (server.go): on a `getUnpayedInvoices` error answer
`500 "Something went wrong"` and report the error; otherwise set the token,
invoice-list and (time mode) expiration headers. -/
def writeClientHeaders (w : ResponseWriter) (c : Client)
    (node : List (Option AddInvoiceResp)) (now : Int) : ResponseWriter × Client × Bool :=
  match c.getUnpayedInvoices node now with
  | (none, c2) => (httpError w "Something went wrong" 500, c2, true)
  | (some unpayed, c2) =>
      let w := setHeader w "Light-Auth-Token" c2.Token
      let w := setHeader w "Light-Auth-Invoices" (getInvoicesJSON unpayed)
      let w := if c2.RouteI.Mode = "time" then
                 setHeader w "Light-Auth-Expiration-Time" (formatRFC3339 c2.ExpirationTime)
               else w
      (w, c2, false)

/-- The per-client body of `updateInvoice` (server.go) once the payment
request was found: settle the invoice with an *empty* pre-image, then in
time mode extend the client's expiration additively and signal the `return`
that ends the whole scan. -/
def settleExtendClient (c : Client) (pr : String) (now : Int) (i : Invoice) : Client × Bool :=
  let c2 := { c with Invoices := aset c.Invoices pr (i.settle []) }
  if c2.RouteI.Mode = "time" then
    let timePeriod := periodOf c2.RouteI.Period
    let e := c2.ExpirationTime
    let e2 := if now < e then now + timePeriod + (e - now) else now + timePeriod
    ({ c2 with ExpirationTime := e2 }, true)
  else (c2, false)

def updateInvoiceClients : List (String × Client) → String → Int →
    List (String × Client) × Bool
  | [], _, _ => ([], false)
  | (k, c) :: rest, pr, now =>
      match alookup c.Invoices pr with
      | none =>
          let (rest2, stop) := updateInvoiceClients rest pr now
          ((k, c) :: rest2, stop)
      | some i =>
          let (c2, stop) := settleExtendClient c pr now i
          if stop then ((k, c2) :: rest, true)
          else
            let (rest2, stop2) := updateInvoiceClients rest pr now
            ((k, c2) :: rest2, stop2)

def updateInvoiceRoutes : ServerStore → String → Int → ServerStore × Bool
  | [], _, _ => ([], false)
  | (k, rt) :: rest, pr, now =>
      let (cl2, stop) := updateInvoiceClients rt.Clients pr now
      let rt2 : Route := { rt with Clients := cl2 }
      if stop then ((k, rt2) :: rest, true)
      else
        let (rest2, stop2) := updateInvoiceRoutes rest pr now
        ((k, rt2) :: rest2, stop2)

/-- Go `updateInvoice` (server.go): the server-side settlement reconciler's
mutation for one `SubscribeInvoices` update. -/
def updateInvoice (store : ServerStore) (pr : String) (now : Int) : ServerStore :=
  (updateInvoiceRoutes store pr now).1

/-- Go `discreteTypeValidator` (server.go).  NOTE: the source's already-claimed
check writes its `400` error but has no `return`, so execution falls through
to the settled check, the claim step and the handler call; the embedding
reproduces that.  `i.claim()`'s save is modelled as succeeding, which makes
the 500 branch after it unreachable. -/
def discreteTypeValidator (c : Client) (w : ResponseWriter) (r : Request) :
    ResponseWriter × Client :=
  let invoiceID := readHeader r.Headers "Light-Auth-Invoice"
  if invoiceID = "" then (httpError w mISSINGINVOICE 400, c)
  else
    let preImageString := readHeader r.Headers "Light-Auth-Pre-Image"
    if preImageString = "" then (httpError w mISSINGPREIMAGE 400, c)
    else
      match alookup c.Invoices invoiceID with
      | none => (httpError w iNVALIDCREDENTIALS 400, c)
      | some i =>
          match hexDecode preImageString with
          | none => (httpError w iNVALIDCREDENTIALS 400, c)
          | some preImage =>
              let hexPreImage := hexEncode (sha256 preImage)
              let hexPaymentHash := hexEncode i.PaymentHash
              if hexPreImage ≠ hexPaymentHash then (httpError w iNVALIDCREDENTIALS 400, c)
              else
                let w1 := if i.isClaimed then httpError w iNVOICEALREADYCLAIMED 400 else w
                if !i.isSettled then (httpError w1 tRYAGAIN 409, c)
                else
                  let c2 := { c with Invoices := aset c.Invoices invoiceID i.claim }
                  let w2 := setHeader w1 "Light-Auth-Invoice" invoiceID
                  (callHandler w2 r, c2)

/-- Go `timeTypeValidator` (server.go). -/
def timeTypeValidator (c : Client) (w : ResponseWriter) (r : Request) (now : Int) :
    ResponseWriter :=
  if c.ExpirationTime < now then httpError w tIMEEXPIRED 402 else callHandler w r

/-- Result of the token-minting loop in `ServerMiddleware`. -/
structure MintResult where
  bodyRuns : Nat
  token : String
  clients : List (String × Client)
deriving Repr, DecidableEq

/-- The token-minting loop of `ServerMiddleware` (server.go), entered with
`token = ""`: the guard re-tests that same empty token against the client
map and, when absent, the body generates a fresh token, creates a `Client`
with an empty invoice map and `ExpirationTime = now` (its save modelled as
succeeding), inserts it — without re-checking the fresh token — and breaks.
When `""` is a key of the map the guard fails forever and the loop spins;
fuel exhaustion (`none`) models that divergence.  `bodyRuns` counts body
executions. -/
def mintLoop (clients : List (String × Client)) (newTok : String) (now : Int)
    (rt : RouteInfo) : Nat → Option MintResult
  | 0 => none
  | fuel + 1 =>
      if (alookup clients "").isSome then mintLoop clients newTok now rt fuel
      else
        let c : Client := { Token := newTok, ExpirationTime := now, Invoices := [], RouteI := rt }
        some { bodyRuns := 1, token := newTok, clients := aset clients newTok c }

/-- Go `ServerMiddleware` (server.go): route lookup (absent → plain pass
through), token minting, constant headers, token validation, client headers,
mode dispatch.  `newTok` models `uniuri.New()`, `node` the Lightning RPC,
`fuel` bounds the minting loop (`none` = it diverged). -/
def serverMiddleware (store : ServerStore) (r : Request) (newTok : String) (now : Int)
    (node : List (Option AddInvoiceResp)) (fuel : Nat) :
    Option (ResponseWriter × ServerStore) :=
  let w := ResponseWriter.empty
  let routeName := r.Method ++ r.URLPath
  match alookup store routeName with
  | none => some (callHandler w r, store)
  | some rt =>
      let token0 := readHeader r.Headers "Light-Auth-Token"
      let minted : Option (String × List (String × Client)) :=
        if token0 = "" then
          match mintLoop rt.Clients newTok now rt.Info fuel with
          | none => none
          | some res => some (res.token, res.clients)
        else some (token0, rt.Clients)
      match minted with
      | none => none
      | some (token, clients1) =>
          let rt1 : Route := { rt with Clients := clients1 }
          let store1 := aset store routeName rt1
          let w := writeConstantHeaders w rt.Info
          match alookup clients1 token with
          | none => some (httpError w iNVALIDTOKEN 400, store1)
          | some c =>
              let (w, c2, er) := writeClientHeaders w c node now
              let store2 := aset store1 routeName { rt1 with Clients := aset clients1 token c2 }
              if er then some (w, store2)
              else if rt.Info.Mode = "time" then
                some (timeTypeValidator c2 w r now, store2)
              else if rt.Info.Mode = "discrete" then
                let (w2, c3) := discreteTypeValidator c2 w r
                some (w2, aset store1 routeName { rt1 with Clients := aset clients1 token c3 })
              else some (w, store2)

/-! ## Client (`client.go`) -/

/-- Go `Path.getUnclaimedInvoices`: settled but not yet claimed, map order. -/
def Path.getUnclaimedInvoices (p : Path) : List Invoice :=
  (p.Invoices.map Prod.snd).filter (fun v => v.Settled && !v.Claimed)

/-- Go `Path.canRequest`: time mode spendability is a live local balance,
discrete mode spendability is a nonempty unclaimed set.  `now` is explicit. -/
def Path.canRequest (p : Path) (now : Int) : Bool :=
  if p.Mode = "time" then now < p.LocalExpirationTime
  else p.getUnclaimedInvoices.length > 0

/-- Go `Path.updateBalance` (client.go): the additive time-mode extension rule;
`setLocalExpirationTime`'s save is modelled as succeeding. -/
def Path.updateBalance (p : Path) (now : Int) : Path :=
  if p.Mode = "time" then
    let timePeriod := periodOf p.TimePeriod
    let e := p.LocalExpirationTime
    if now < e then { p with LocalExpirationTime := now + timePeriod + (e - now) }
    else { p with LocalExpirationTime := now + timePeriod }
  else p

/-- Go `confirmInvoiceSettled` (client.go): the client-side reconciler's action
on a payment-stream pre-image — hash it, find the first Path whose invoice
map has that hex hash as a key, settle that invoice storing the pre-image,
update the balance, and stop. -/
def confirmInvoiceSettled : ClientStore → Bytes → Int → ClientStore
  | [], _, _ => []
  | (k, p) :: rest, preImage, now =>
      let paymentHash := hexEncode (sha256 preImage)
      match alookup p.Invoices paymentHash with
      | none => (k, p) :: confirmInvoiceSettled rest preImage now
      | some i =>
          let p2 := { p with Invoices := aset p.Invoices paymentHash (i.settle preImage) }
          (k, p2.updateBalance now) :: rest

/-- Modelled from the spec: the wire shape of one entry of the
`Light-Auth-Invoices` header (the `JSONInvoice` declaration is missing from
the snapshot); §6.2 gives `payment_request` and `expiration_time`. -/
structure JSONInvoice where
  PaymentRequest : String
  ExpirationTime : Int
deriving Repr, DecidableEq

def parseStrBody : List Char → List Char → Option (String × List Char)
  | [], _ => none
  | c :: rest, acc =>
      if c = Char.ofNat 34 then some (String.mk acc.reverse, rest)
      else parseStrBody rest (c :: acc)

/-- Parse a double-quoted string literal (no escapes). -/
def parseStrLit : List Char → Option (String × List Char)
  | [] => none
  | c :: rest => if c = Char.ofNat 34 then parseStrBody rest [] else none

/-- Match an exact character sequence. -/
def expectChars : List Char → List Char → Option (List Char)
  | [], l => some l
  | _ :: _, [] => none
  | e :: es, c :: cs => if c = e then expectChars es cs else none

/-- Modelled from the spec: decode one JSON invoice object of the §6.2
format (fields in the order the server emits them). -/
def parseJSONObj (l : List Char) : Option (JSONInvoice × List Char) := do
  let l ← expectChars (String.data "\x7b\"payment_request\":") l
  let (pr, l) ← parseStrLit l
  let l ← expectChars (String.data ",\"expiration_time\":") l
  let (et, l) ← parseStrLit l
  let l ← expectChars (String.data "\x7d") l
  let t ← parseRFC3339 et
  pure ({ PaymentRequest := pr, ExpirationTime := t }, l)

def parseObjsGo : Nat → List Char → Option (List JSONInvoice × List Char)
  | 0, _ => none
  | fuel + 1, l => do
      let (o, rest) ← parseJSONObj l
      match rest with
      | c :: rest2 =>
          if c = Char.ofNat 44 then do
            let (os, rest3) ← parseObjsGo fuel rest2
            pure (o :: os, rest3)
          else pure ([o], rest)
      | [] => pure ([o], [])

/-- Modelled from the spec: `json.Unmarshal` of the `Light-Auth-Invoices`
header into `[]JSONInvoice` (§6.2 array format). -/
def parseInvoicesJSON (s : String) : Option (List JSONInvoice) :=
  match s.data with
  | [] => none
  | c :: rest =>
      if c = Char.ofNat 91 then
        match rest with
        | [] => none
        | d :: rest2 =>
            if d = Char.ofNat 93 ∧ rest2 = [] then some []
            else
              match parseObjsGo rest.length rest with
              | some (os, [e]) => if e = Char.ofNat 93 then some os else none
              | _ => none
      else none

/-- The harvest loop of `getInvoicesFromResponse` (client.go): each decoded
entry is keyed by the node's `DecodePayReq` payment hash (`decodePay`, `none`
= RPC error, which skips the entry), hex-decoded into the invoice. -/
def invoicesFromJSONData (decodePay : String → Option String) (fee : Int) :
    List JSONInvoice → List (String × Invoice) → List (String × Invoice)
  | [], m => m
  | v :: rest, m =>
      match decodePay v.PaymentRequest with
      | none => invoicesFromJSONData decodePay fee rest m
      | some ph =>
          match hexDecode ph with
          | none => invoicesFromJSONData decodePay fee rest m
          | some phb =>
              invoicesFromJSONData decodePay fee rest
                (aset m ph { PaymentRequest := v.PaymentRequest, Fee := fee, PaymentHash := phb,
                             Settled := false, PreImage := none, Claimed := false,
                             ExpirationTime := v.ExpirationTime })

/-- Go `getInvoicesFromResponse` (client.go). -/
def getInvoicesFromResponse (decodePay : String → Option String)
    (h : List (String × String)) : Option (List (String × Invoice)) := do
  let fee ← parseIntGo (readHeader h "Light-Auth-Fee")
  let jsonData ← parseInvoicesJSON (readHeader h "Light-Auth-Invoices")
  pure (invoicesFromJSONData decodePay fee jsonData [])

/-- An HTTP response as the client sees it. -/
structure Response where
  Headers : List (String × String)
  Body : String
deriving Repr, DecidableEq

/-- The invoice-harvest loop of `ReadResponse` (client.go): for each invoice
of the response re-derive the payment hash through the node (an error aborts
with "server has sent invalid invoice") and insert it if the Path does not
already hold that hash. -/
def harvestLoop (decodePay : String → Option String) :
    List (String × Invoice) → List (String × Invoice) → Option (List (String × Invoice))
  | pinvs, [] => some pinvs
  | pinvs, (_, v) :: rest =>
      match decodePay v.PaymentRequest with
      | none => none
      | some ph =>
          let pinvs2 :=
            match alookup pinvs ph with
            | some _ => pinvs
            | none => aset pinvs ph v
          harvestLoop decodePay pinvs2 rest

/-- The claimed-invoice scan of `ReadResponse`: a loop without a break, so
the LAST invoice whose payment request matches wins. -/
def findClaimedInvoice (invs : List (String × Invoice)) (id : String) :
    Option (String × Invoice) :=
  invs.foldl (fun acc kv => if kv.2.PaymentRequest = id then some kv else acc) none

/-- Go `ReadResponse` (client.go), from the point where the URL has been parsed
into the `host + path` key `u`.  Returns the error (`none` = success) and
the updated client store.  The mutation of the store performed before an
error return persists, as it does through the Go global. -/
def ReadResponse (store : ClientStore) (u : String) (resp : Response)
    (decodePay : String → Option String) : Option String × ClientStore :=
  match alookup store u with
  | none => (some "Lightauth error: attempting to read a response that is not configured", store)
  | some p =>
      match parseIntGo (readHeader resp.Headers "Light-Auth-Status") with
      | none => (some "Lightauth error: attempting to read invalid response", store)
      | some lightStatusCode =>
          match getInvoicesFromResponse decodePay resp.Headers with
          | none => (some "Lightauth error: could not read invoices from response", store)
          | some invoices =>
              match harvestLoop decodePay p.Invoices invoices with
              | none => (some "Lightauth error: server has sent invalid invoice", store)
              | some pinvs =>
                  let p1 := { p with Invoices := pinvs }
                  let store1 := aset store u p1
                  if lightStatusCode = 200 then
                    if p1.Mode = "time" then
                      match parseRFC3339 (readHeader resp.Headers "Light-Auth-Expiration-Time") with
                      | none => (some "Lightauth error: Could not read header", store1)
                      | some t => (none, aset store1 u { p1 with SyncExpirationTime := t })
                    else
                      let invoiceID := readHeader resp.Headers "Light-Auth-Invoice"
                      match findClaimedInvoice p1.Invoices invoiceID with
                      | none =>
                          -- the source logs and returns the current `err`,
                          -- which is nil at this point: no error is reported
                          (none, store1)
                      | some (k, i) =>
                          (none, aset store1 u { p1 with Invoices := aset p1.Invoices k i.claim })
                  else if lightStatusCode = 400 then (some resp.Body, store1)
                  else if lightStatusCode = 409 then (some "Lightauth error: conflict", store1)
                  else if lightStatusCode = 500 then
                    (some "Lightauth error: internal server error", store1)
                  else if lightStatusCode = 402 then
                    (some "Lightauth error: payment required", store1)
                  else (some "Lightauth error: The response status code is not recognised", store1)

/-! ## `ClearRequest` (client.go), after route discovery -/

/-- Constant `lOOPTHRESHOLD` is 500 (milliseconds). -/
def lOOPTHRESHOLD : Int := 500

/-- Exit condition of the `ClearRequest` spin loop at iteration `n`:
`canRequest()` observed true, or more than 500 ms of wall clock elapsed
since the loop started.  `canR` and `elapsed` are the observations of the
concurrently mutated path state and of `time.Since(startTime)`. -/
def spinExit (canR : Nat → Bool) (elapsed : Nat → Int) (n : Nat) : Prop :=
  canR n = true ∨ lOOPTHRESHOLD * goMillisecond < elapsed n

instance (canR : Nat → Bool) (elapsed : Nat → Int) : DecidablePred (spinExit canR elapsed) :=
  fun n => by unfold spinExit; infer_instance

/-- The iteration at which the spin loop of `ClearRequest` breaks: the first
one satisfying `spinExit`. -/
def waitIters (canR : Nat → Bool) (elapsed : Nat → Int)
    (h : ∃ n, spinExit canR elapsed n) : Nat :=
  Nat.find h

/-- Outcome of `ClearRequest`: the error (`none` = success), the prepared
request, and the payment requests submitted on the payment stream. -/
structure ClearOutcome where
  result : Option String
  request : Request
  payments : List String
deriving Repr, DecidableEq

/-- Go `ClearRequest` (client.go) for an already-discovered path: attach the
token, replenish (submit payments for unsettled unexpired invoices when the
sync balance is stale / no unclaimed invoice exists), spin until `spinExit`,
then in discrete mode attach the first settled-and-unclaimed invoice's
pre-image and payment request (error if none).  The loop's termination
evidence `h` comes from the wall clock being unbounded. -/
def clearRequestCore (p : Path) (request : Request) (now : Int)
    (canR : Nat → Bool) (elapsed : Nat → Int)
    (h : ∃ n, spinExit canR elapsed n) : ClearOutcome :=
  let req1 := { request with Headers := aset request.Headers "Light-Auth-Token" p.Token }
  let flag := if p.Mode = "time" then decide (p.SyncExpirationTime < now)
              else decide (p.getUnclaimedInvoices.length < 1)
  let payments :=
    if flag then
      ((p.Invoices.map Prod.snd).filter
        (fun v => !v.isSettled && !v.isExpired now)).map (fun v => v.PaymentRequest)
    else []
  let _exit := waitIters canR elapsed h
  if p.Mode = "discrete" then
    match (p.Invoices.map Prod.snd).find? (fun v => v.isSettled && !v.isClaimed) with
    | some v =>
        let hs := aset (aset req1.Headers "Light-Auth-Pre-Image" (hexEncode (v.PreImage.getD [])))
          "Light-Auth-Invoice" v.PaymentRequest
        { result := none, request := { req1 with Headers := hs }, payments := payments }
    | none =>
        { result := some "Lightauth error: something went wrong", request := req1,
          payments := payments }
  else { result := none, request := req1, payments := payments }

/-! ## Stated invariants and views -/

/-- Spec invariant 1 over one invoice map: `Claimed ⇒ Settled`. -/
def InvariantCS (invs : List (String × Invoice)) : Prop :=
  ∀ k i, alookup invs k = some i → i.Claimed = true → i.Settled = true

/-- Spec invariant 2 over one invoice: a set pre-image hashes to the
payment hash. -/
def PreImageOK (i : Invoice) : Prop :=
  ∀ q, i.PreImage = some q → sha256 q = i.PaymentHash

/-- Spec invariant 2 over one invoice map. -/
def MapPreOK (invs : List (String × Invoice)) : Prop :=
  ∀ k i, alookup invs k = some i → PreImageOK i

/-- A client-side invoice map is keyed by the lower-case hex of each
invoice's payment hash (how `ReadResponse`/`getInvoicesFromResponse` build
it), with genuine byte values. -/
def WellKeyed (invs : List (String × Invoice)) : Prop :=
  ∀ k i, alookup invs k = some i → k = hexEncode i.PaymentHash ∧ ∀ x ∈ i.PaymentHash, x < 256

/-- No route of the store is in time mode (as seen through the back
references the clients carry). -/
def AllNonTime (s : ServerStore) : Prop :=
  ∀ kr ∈ s, ∀ kc ∈ kr.2.Clients, kc.2.RouteI.Mode ≠ "time"

/-- The response writer never saw a `Light-Auth-Status` header. -/
def noStatusKey (w : ResponseWriter) : Prop :=
  alookup w.headers "Light-Auth-Status" = none

/-- Erase the (server, per-client) expiration times, keeping every other
field — the "invoice fields" view of a store. -/
def Client.eraseExp (c : Client) : Client := { c with ExpirationTime := 0 }

def clientsEraseExp (l : List (String × Client)) : List (String × Client) :=
  l.map (fun kc => (kc.1, kc.2.eraseExp))

def storeEraseExp (s : ServerStore) : ServerStore :=
  s.map (fun kr => (kr.1, { kr.2 with Clients := clientsEraseExp kr.2.Clients }))

/-- Fold a sequence of client-side settlement events (their observation
times) over the balance. -/
def settleMany (p : Path) : List Int → Path
  | [] => p
  | t :: ts => settleMany (p.updateBalance t) ts

/-! ## Concrete fixtures -/

def discRI : RouteInfo :=
  { Name := "r", Fee := 10, MaxInvoices := 2, Mode := "discrete", Period := "" }

def timeRI : RouteInfo :=
  { Name := "r", Fee := 1, MaxInvoices := 2, Mode := "time", Period := "second" }

/-- A settled, already-claimed invoice whose payment hash matches the
pre-image `0x61`. -/
def c2Invoice : Invoice :=
  { PaymentRequest := "inv1", PaymentHash := sha256 [97], Fee := 10, Settled := true,
    PreImage := some [97], Claimed := true, ExpirationTime := 0 }

def c2Client : Client :=
  { Token := "tok", ExpirationTime := 0, Invoices := [("inv1", c2Invoice)], RouteI := discRI }

/-- A discrete replay: valid invoice and pre-image headers for `c2Invoice`. -/
def c2Request : Request :=
  { Method := "GET", URLPath := "/x",
    Headers := [("Light-Auth-Invoice", "inv1"), ("Light-Auth-Pre-Image", "61"),
                ("Light-Auth-Token", "tok")] }

def c2Run : ResponseWriter × Client := discreteTypeValidator c2Client ResponseWriter.empty c2Request

/-- An invoice the client has NOT seen settled. -/
def c3Invoice : Invoice :=
  { PaymentRequest := "inv1", PaymentHash := [], Fee := 10, Settled := false,
    PreImage := none, Claimed := false, ExpirationTime := 0 }

def c3Path : Path :=
  { LocalExpirationTime := 0, SyncExpirationTime := 0, Token := "tok",
    Invoices := [("k1", c3Invoice)], Fee := 10, TimePeriod := "", Mode := "discrete",
    MaxInvoices := 2, URL := "h/p" }

def c3Store : ClientStore := [("h/p", c3Path)]

/-- A discrete 200 response echoing `inv1` with no new invoices. -/
def c3Resp : Response :=
  { Headers := [("Light-Auth-Status", "200"), ("Light-Auth-Fee", "10"),
                ("Light-Auth-Invoices", "[]"), ("Light-Auth-Invoice", "inv1")],
    Body := "" }

def c3Run : Option String × ClientStore := ReadResponse c3Store "h/p" c3Resp (fun _ => none)

def c3ResultInvoice : Option Invoice :=
  match alookup c3Run.2 "h/p" with
  | none => none
  | some p => alookup p.Invoices "k1"

/-- A time-mode store holding one unsettled invoice. -/
def c4Invoice : Invoice :=
  { PaymentRequest := "inv1", PaymentHash := [], Fee := 0, Settled := false,
    PreImage := none, Claimed := false, ExpirationTime := 0 }

def c4Client : Client :=
  { Token := "tok", ExpirationTime := 0, Invoices := [("inv1", c4Invoice)], RouteI := timeRI }

def c4Store : ServerStore := [("GET/x", { Info := timeRI, Clients := [("tok", c4Client)] })]

def c4ClientExp (s : ServerStore) : Option Int :=
  match alookup s "GET/x" with
  | none => none
  | some rt =>
      match alookup rt.Clients "tok" with
      | none => none
      | some c => some c.ExpirationTime

/-- A client with one existing unsettled invoice and room for one more. -/
def c6Invoice : Invoice :=
  { PaymentRequest := "inv0", PaymentHash := [], Fee := 0, Settled := false,
    PreImage := none, Claimed := false, ExpirationTime := 0 }

def c6Client : Client :=
  { Token := "tok", ExpirationTime := 0, Invoices := [("inv0", c6Invoice)], RouteI := discRI }

/-- Run of `writeClientHeaders` against a node whose first `AddInvoice` fails. -/
def c6Run : ResponseWriter × Client × Bool :=
  writeClientHeaders ResponseWriter.empty c6Client [none] 0

/-- A server-side invoice with a genuine payment hash (of pre-image `0x61`). -/
def c7Invoice : Invoice :=
  { PaymentRequest := "inv1", PaymentHash := sha256 [97], Fee := 0, Settled := false,
    PreImage := none, Claimed := false, ExpirationTime := 0 }

def c7Client : Client :=
  { Token := "tok", ExpirationTime := 0, Invoices := [("inv1", c7Invoice)], RouteI := discRI }

def c7Store : ServerStore := [("GET/x", { Info := discRI, Clients := [("tok", c7Client)] })]

def c7Run : ServerStore := updateInvoice c7Store "inv1" 0

def c7ResultInvoice : Option Invoice :=
  match alookup c7Run "GET/x" with
  | none => none
  | some rt =>
      match alookup rt.Clients "tok" with
      | none => none
      | some c => alookup c.Invoices "inv1"

def c5Path : Path :=
  { LocalExpirationTime := 0, SyncExpirationTime := 0, Token := "tok", Invoices := [],
    Fee := 1, TimePeriod := "second", Mode := "time", MaxInvoices := 3, URL := "h/p" }

def c9Path : Path :=
  { LocalExpirationTime := 0, SyncExpirationTime := 0, Token := "tok9", Invoices := [],
    Fee := 1, TimePeriod := "second", Mode := "time", MaxInvoices := 3, URL := "h/p" }

def c9Request : Request := { Method := "GET", URLPath := "/x", Headers := [] }

set_option maxRecDepth 1000000

def c10OldClient : Client :=
  { Token := "tokA", ExpirationTime := 77, Invoices := [("i", c2Invoice)], RouteI := discRI }

def c1WRI : RouteInfo := { Name := "r", Fee := 1, MaxInvoices := 0, Mode := "time", Period := "second" }

def c1WClient : Client := { Token := "tokC", ExpirationTime := 10, Invoices := [], RouteI := c1WRI }

def c1WStore : ServerStore := [("GET/w", { Info := c1WRI, Clients := [("tokC", c1WClient)] })]

def c1WReq : Request :=
  { Method := "GET", URLPath := "/w", Headers := [("Light-Auth-Token", "tokC")] }

def c1WRun : ResponseWriter × ServerStore :=
  (serverMiddleware c1WStore c1WReq "t0" 7 [] 3).getD (ResponseWriter.empty, [])

def c4WClient : Client :=
  { Token := "tok", ExpirationTime := 3, Invoices := [("inv1", c4Invoice)], RouteI := discRI }

def c4WStore : ServerStore := [("GET/x", { Info := discRI, Clients := [("tok", c4WClient)] })]

def c7WInvoice : Invoice :=
  { PaymentRequest := "inv1", PaymentHash := sha256 [97], Fee := 10, Settled := false,
    PreImage := none, Claimed := false, ExpirationTime := 0 }

def c7WPath : Path :=
  { LocalExpirationTime := 0, SyncExpirationTime := 0, Token := "tok",
    Invoices := [(hexEncode (sha256 [97]), c7WInvoice)], Fee := 10, TimePeriod := "",
    Mode := "discrete", MaxInvoices := 2, URL := "h/p" }

def c7WPathUpdated : Path :=
  { c7WPath with Invoices := [(hexEncode (sha256 [97]), c7WInvoice.settle [97])] }

def c3WInvoice : Invoice :=
  { PaymentRequest := "inv1", PaymentHash := [], Fee := 10, Settled := true,
    PreImage := none, Claimed := false, ExpirationTime := 0 }

def c3WPath : Path :=
  { LocalExpirationTime := 0, SyncExpirationTime := 0, Token := "tok",
    Invoices := [("k1", c3WInvoice)], Fee := 10, TimePeriod := "", Mode := "discrete",
    MaxInvoices := 2, URL := "h/p" }

def c3WStore : ClientStore := [("h/p", c3WPath)]

def c3WResultPath : Path :=
  { c3WPath with Invoices := [("k1", c3WInvoice.claim)] }

/-! # Theorems -/

/-! ## Association list laws -/

theorem alookup_aset_self {α : Type} (l : List (String × α)) (k : String) (v : α) :
    alookup (aset l k v) k = some v := by
  induction l with
  | nil => simp [aset, alookup]
  | cons hd tl ih =>
      obtain ⟨k0, v0⟩ := hd
      by_cases h : k0 = k
      · simp [aset, h, alookup]
      · simp [aset, h, alookup, ih]

theorem alookup_aset_ne {α : Type} (l : List (String × α)) (k k' : String) (v : α)
    (h : k ≠ k') : alookup (aset l k v) k' = alookup l k' := by
  induction l with
  | nil => simp [aset, alookup, h]
  | cons hd tl ih =>
      obtain ⟨k0, v0⟩ := hd
      by_cases h0 : k0 = k
      · subst h0
        simp [aset, alookup, h]
      · simp [aset, h0, alookup, ih]

theorem alookup_aset_cases {α : Type} (l : List (String × α)) (k0 k : String) (v0 v : α)
    (h : alookup (aset l k0 v0) k = some v) : (k = k0 ∧ v = v0) ∨ alookup l k = some v := by
  by_cases hk : k0 = k
  · subst hk
    rw [alookup_aset_self] at h
    exact Or.inl ⟨rfl, (Option.some.inj h).symm⟩
  · rw [alookup_aset_ne _ _ _ _ hk] at h
    exact Or.inr h

theorem mem_aset {α : Type} (l : List (String × α)) (k : String) (v : α) (x : String × α)
    (h : x ∈ aset l k v) : x = (k, v) ∨ x ∈ l := by
  induction l with
  | nil => simpa [aset] using h
  | cons hd tl ih =>
      obtain ⟨k0, v0⟩ := hd
      by_cases h0 : k0 = k
      · simp [aset, h0] at h
        rcases h with h | h
        · exact Or.inl h
        · exact Or.inr (List.mem_cons_of_mem _ h)
      · simp [aset, h0] at h
        rcases h with h | h
        · exact Or.inr (by simp [h])
        · rcases ih h with h2 | h2
          · exact Or.inl h2
          · exact Or.inr (List.mem_cons_of_mem _ h2)

theorem aset_aset_same {α : Type} (l : List (String × α)) (k : String) (v : α) :
    aset (aset l k v) k v = aset l k v := by
  induction l with
  | nil => simp [aset]
  | cons hd tl ih =>
      obtain ⟨k0, v0⟩ := hd
      by_cases h : k0 = k
      · simp [aset, h]
      · simp [aset, h, ih]

/-! ## C5: additive time-mode balance extension -/

theorem updateBalance_step (p : Path) (now : Int) (hmode : p.Mode = "time") :
    p.LocalExpirationTime + periodOf p.TimePeriod ≤ (p.updateBalance now).LocalExpirationTime := by
  unfold Path.updateBalance
  rw [hmode]
  by_cases hlt : now < p.LocalExpirationTime <;> simp [hlt] <;> omega

theorem updateBalance_frame (p : Path) (now : Int) :
    (p.updateBalance now).Mode = p.Mode ∧ (p.updateBalance now).TimePeriod = p.TimePeriod ∧
    (p.updateBalance now).Invoices = p.Invoices := by
  unfold Path.updateBalance
  by_cases hm : p.Mode = "time" <;> by_cases hlt : now < p.LocalExpirationTime <;>
    simp [hm, hlt]

theorem settleMany_ge (p : Path) (ts : List Int) (hmode : p.Mode = "time") :
    p.LocalExpirationTime + (ts.length : Int) * periodOf p.TimePeriod ≤
      (settleMany p ts).LocalExpirationTime := by
  induction ts generalizing p with
  | nil => simp [settleMany]
  | cons t ts ih =>
      have h1 := updateBalance_step p t hmode
      have hm := updateBalance_frame p t
      have h2 := ih (p.updateBalance t) (hm.1.trans hmode)
      rw [hm.2.1] at h2
      have hlen : ((t :: ts).length : Int) * periodOf p.TimePeriod =
          (ts.length : Int) * periodOf p.TimePeriod + periodOf p.TimePeriod := by
        push_cast [List.length_cons]
        ring
      rw [settleMany, hlen]
      omega

/-- C5: in time mode each settlement event applies the additive extension
rule, growing the local balance by at least one period, and a sequence of
`N` settlement events grows it by at least `N` periods relative to the
starting expiration — accumulated paid time is never lost.  (The server
side's `updateInvoice` applies the identical rule through
`settleExtendClient`.) -/
theorem c5_additive_extension (p : Path) (now : Int) (ts : List Int)
    (hmode : p.Mode = "time") :
    p.LocalExpirationTime + periodOf p.TimePeriod ≤ (p.updateBalance now).LocalExpirationTime ∧
    p.LocalExpirationTime + (ts.length : Int) * periodOf p.TimePeriod ≤
      (settleMany p ts).LocalExpirationTime :=
  ⟨updateBalance_step p now hmode, settleMany_ge p ts hmode⟩

theorem c5_additive_extension_witness :
    c5Path.LocalExpirationTime + periodOf c5Path.TimePeriod ≤
      (c5Path.updateBalance 0).LocalExpirationTime ∧
    c5Path.LocalExpirationTime + (([0, 500000000] : List Int).length : Int) *
        periodOf c5Path.TimePeriod ≤
      (settleMany c5Path [0, 500000000]).LocalExpirationTime :=
  c5_additive_extension c5Path 0 [0, 500000000] rfl

/-! ## C8: unconfigured routes pass through untouched -/

/-- C8: when `METHOD + path` is not a key of the route table the middleware
invokes the wrapped handler with the request unchanged, emits no header, no
status and no body, and leaves the server store untouched. -/
theorem c8_passthrough (store : ServerStore) (r : Request) (newTok : String) (now : Int)
    (node : List (Option AddInvoiceResp)) (fuel : Nat)
    (h : alookup store (r.Method ++ r.URLPath) = none) :
    serverMiddleware store r newTok now node fuel =
      some ({ headers := [], status := none, body := "", handlerReq := some r }, store) := by
  simp [serverMiddleware, h, callHandler, ResponseWriter.empty]

theorem c8_passthrough_witness :
    serverMiddleware [("POST/z", { Info := Lightauth.discRI, Clients := [] })]
        { Method := "GET", URLPath := "/y", Headers := [] } "t0" 0 [] 1 =
      some ({ headers := [], status := none, body := "",
              handlerReq := some { Method := "GET", URLPath := "/y", Headers := [] } },
            [("POST/z", { Info := Lightauth.discRI, Clients := [] })]) :=
  c8_passthrough _ _ "t0" 0 [] 1 (by decide)

/-! ## C9: the ClearRequest spin loop -/

/-- C9: the spin loop of `ClearRequest` stops at the first iteration where
`canRequest()` is observed true or more than 500 ms have elapsed (given the
wall clock eventually passes any bound, such an iteration exists), and after
a loop exit a time-mode `ClearRequest` returns the prepared request — token
header attached — without error. -/
theorem c9_spin_terminates (p : Path) (request : Request) (now : Int)
    (canR : Nat → Bool) (elapsed : Nat → Int)
    (h : ∃ n, spinExit canR elapsed n) (hmode : p.Mode = "time") :
    spinExit canR elapsed (waitIters canR elapsed h) ∧
    (∀ m, m < waitIters canR elapsed h → ¬ spinExit canR elapsed m) ∧
    (clearRequestCore p request now canR elapsed h).result = none ∧
    (clearRequestCore p request now canR elapsed h).request =
      { request with Headers := aset request.Headers "Light-Auth-Token" p.Token } := by
  refine ⟨Nat.find_spec h, fun m hm => Nat.find_min h hm, ?_, ?_⟩
  · unfold clearRequestCore
    rw [hmode]
    simp
  · unfold clearRequestCore
    rw [hmode]
    simp

/-- A run whose `canRequest()` is never true: only the timeout stops it. -/
theorem c9_spin_terminates_witness :
    (clearRequestCore c9Path c9Request 0 (fun _ => false) (fun _ => 600 * goMillisecond)
        ⟨0, Or.inr (by decide)⟩).result = none ∧
    (clearRequestCore c9Path c9Request 0 (fun _ => false) (fun _ => 600 * goMillisecond)
        ⟨0, Or.inr (by decide)⟩).request =
      { c9Request with Headers := aset c9Request.Headers "Light-Auth-Token" c9Path.Token } :=
  ⟨(c9_spin_terminates c9Path c9Request 0 _ _ _ rfl).2.2.1,
   (c9_spin_terminates c9Path c9Request 0 _ _ _ rfl).2.2.2⟩

/-! ## C10: the token-minting loop -/

/-- C10: entered with the empty token and a client map without the empty
key, the minting loop runs its body exactly once, inserting a fresh `Client`
with an empty invoice map and `ExpirationTime = now` under the generated
token; the generated token is not re-checked, so the insertion overwrites
whatever record that key may have held; and an insertion of a nonempty token
keeps the empty key absent. -/
theorem c10_mint_once (clients : List (String × Client)) (newTok : String) (now : Int)
    (rt : RouteInfo) (fuel : Nat)
    (hempty : alookup clients "" = none) (hfuel : 1 ≤ fuel) :
    mintLoop clients newTok now rt fuel =
      some { bodyRuns := 1, token := newTok,
             clients := aset clients newTok
               { Token := newTok, ExpirationTime := now, Invoices := [], RouteI := rt } } ∧
    alookup (aset clients newTok
        { Token := newTok, ExpirationTime := now, Invoices := [], RouteI := rt }) newTok =
      some { Token := newTok, ExpirationTime := now, Invoices := [], RouteI := rt } ∧
    (newTok ≠ "" → alookup (aset clients newTok
        { Token := newTok, ExpirationTime := now, Invoices := [], RouteI := rt }) "" = none) := by
  obtain ⟨f, rfl⟩ : ∃ f, fuel = f + 1 := ⟨fuel - 1, by omega⟩
  refine ⟨?_, alookup_aset_self _ _ _, fun hne => ?_⟩
  · unfold mintLoop
    rw [hempty]
    rfl
  · rw [alookup_aset_ne _ _ _ _ hne]
    exact hempty

/-- The collision case: the fresh token equals an existing key, whose record
is silently replaced. -/
theorem c10_mint_once_witness :
    mintLoop [("tokA", c10OldClient)] "tokA" 5 discRI 1 =
      some { bodyRuns := 1, token := "tokA",
             clients := aset [("tokA", c10OldClient)] "tokA"
               { Token := "tokA", ExpirationTime := 5, Invoices := [], RouteI := discRI } } ∧
    alookup (aset [("tokA", c10OldClient)] "tokA"
        { Token := "tokA", ExpirationTime := 5, Invoices := [], RouteI := discRI }) "tokA" =
      some { Token := "tokA", ExpirationTime := 5, Invoices := [], RouteI := discRI } ∧
    ("tokA" ≠ "" → alookup (aset [("tokA", c10OldClient)] "tokA"
        { Token := "tokA", ExpirationTime := 5, Invoices := [], RouteI := discRI }) "" = none) :=
  c10_mint_once [("tokA", c10OldClient)] "tokA" 5 discRI 1 (by decide) (by decide)

/-! ## C2: the already-claimed branch misses its return -/

/-- C2 (code bug): a discrete request that passes every credential check on
an invoice that is both settled and already claimed gets the
`400 "Invoice has already been claimed"` status and body — the claimed check
does fire first, taking precedence over the 409 answer — but, the check
lacking a `return`, execution falls through: the claim step runs again and
the wrapped handler IS invoked, contradicting both the spec's "each failure
returning the stated status" contract for check 6 and the `return` every
sibling branch performs. -/
theorem c2_claimed_falls_through :
    c2Run.1.status = some 400 ∧
    c2Run.1.body = iNVOICEALREADYCLAIMED ++ "\n" ∧
    c2Run.1.handlerReq = some c2Request ∧
    alookup c2Run.2.Invoices "inv1" = some { c2Invoice with Claimed := true } := by
  refine ⟨?_, ?_, ?_, ?_⟩ <;> decide

/-! ## C3: Claimed ⇒ Settled -/

/-- C3 (counterexample): `ReadResponse` on a discrete 200 response claims
the invoice matching the echoed `Light-Auth-Invoice` header without checking
its `Settled` flag: starting from a path whose only invoice is unsettled,
the call reports success and leaves the invoice with `Claimed = true` while
`Settled = false`, breaking `Claimed ⇒ Settled`. -/
theorem c3_claims_unsettled_invoice :
    c3Run.1 = none ∧
    c3ResultInvoice = some { c3Invoice with Claimed := true } ∧
    c3Invoice.Settled = false := by
  refine ⟨?_, ?_, ?_⟩ <;> decide

/-! ## C4: second settlement of the same payment request -/

/-- C4 (counterexample): in time mode `updateInvoice` is NOT idempotent on
the client's `ExpirationTime`: at `now = 0` with period one second, the
first application leaves the expiration at 1 s and a second application with
the same payment request extends it again to 2 s. -/
theorem c4_double_extension :
    c4ClientExp (updateInvoice c4Store "inv1" 0) = some 1000000000 ∧
    c4ClientExp (updateInvoice (updateInvoice c4Store "inv1" 0) "inv1" 0) =
      some 2000000000 := by
  refine ⟨?_, ?_⟩ <;> decide

/-! ## C6: node-RPC failure during invoice generation -/

/-- C6 (counterexample): with one existing unpaid invoice and
`MaxInvoices = 2`, a node failure on the shortfall generation makes
`writeClientHeaders` answer `500` and report the error; the existing unpaid
invoice is NOT returned — no `Light-Auth-Invoices` (nor any other
`Light-Auth-*`) header is set. -/
theorem c6_shortfall_not_tolerated :
    c6Run.1.status = some 500 ∧
    alookup c6Run.1.headers "Light-Auth-Invoices" = none ∧
    alookup c6Run.1.headers "Light-Auth-Token" = none ∧
    c6Run.2.2 = true ∧
    (unpayedOf c6Client).length = 1 := by
  refine ⟨?_, ?_, ?_, ?_, ?_⟩ <;> decide

/-! ## C7: SHA-256(PreImage) = PaymentHash -/

/-- C7 (counterexample): the server-side reconciler settles with an empty
pre-image: after `updateInvoice`, the matched invoice has `PreImage`
assigned (`some []`) although SHA-256 of that empty string differs from the
invoice's payment hash. -/
theorem c7_server_stores_empty_preimage :
    c7ResultInvoice = some { c7Invoice with Settled := true, PreImage := some [] } ∧
    sha256 [] ≠ c7Invoice.PaymentHash := by
  refine ⟨?_, ?_⟩ <;> decide

/-! ## C1: the Light-Auth-Status header is never emitted -/

theorem noStatus_setHeader (w : ResponseWriter) (k v : String)
    (hk : k ≠ "Light-Auth-Status") (h : noStatusKey w) : noStatusKey (setHeader w k v) := by
  unfold noStatusKey setHeader at *
  rw [alookup_aset_ne _ _ _ _ hk]
  exact h

theorem noStatus_writeHeaderW (w : ResponseWriter) (code : Int) (h : noStatusKey w) :
    noStatusKey (writeHeaderW w code) := by
  unfold noStatusKey writeHeaderW at *
  split <;> simpa using h

theorem noStatus_httpError (w : ResponseWriter) (msg : String) (code : Int)
    (h : noStatusKey w) : noStatusKey (httpError w msg code) := by
  have h2 := noStatus_writeHeaderW _ code (noStatus_setHeader _ "X-Content-Type-Options"
    "nosniff" (by decide) (noStatus_setHeader w "Content-Type" "text/plain; charset=utf-8"
      (by decide) h))
  unfold noStatusKey at h2 ⊢
  simpa [httpError] using h2

theorem noStatus_callHandler (w : ResponseWriter) (r : Request) (h : noStatusKey w) :
    noStatusKey (callHandler w r) := h

theorem noStatus_writeConstantHeaders (w : ResponseWriter) (rt : RouteInfo)
    (h : noStatusKey w) : noStatusKey (writeConstantHeaders w rt) := by
  have h4 := noStatus_setHeader _ "Light-Auth-Max-Invoices" (itoa rt.MaxInvoices) (by decide)
    (noStatus_setHeader _ "Light-Auth-Fee" (itoa rt.Fee) (by decide)
      (noStatus_setHeader _ "Light-Auth-Mode" rt.Mode (by decide)
        (noStatus_setHeader w "Light-Auth-Name" rt.Name (by decide) h)))
  unfold writeConstantHeaders
  split
  · exact noStatus_setHeader _ "Light-Auth-Time-Period" rt.Period (by decide) h4
  · exact h4

theorem noStatus_writeClientHeaders (w : ResponseWriter) (c : Client)
    (node : List (Option AddInvoiceResp)) (now : Int) (h : noStatusKey w) :
    noStatusKey (writeClientHeaders w c node now).1 := by
  unfold writeClientHeaders
  split
  · exact noStatus_httpError _ _ _ h
  · split
    · exact noStatus_setHeader _ "Light-Auth-Expiration-Time" _ (by decide)
        (noStatus_setHeader _ "Light-Auth-Invoices" _ (by decide)
          (noStatus_setHeader _ "Light-Auth-Token" _ (by decide) h))
    · exact noStatus_setHeader _ "Light-Auth-Invoices" _ (by decide)
        (noStatus_setHeader _ "Light-Auth-Token" _ (by decide) h)

theorem noStatus_timeTypeValidator (c : Client) (w : ResponseWriter) (r : Request)
    (now : Int) (h : noStatusKey w) : noStatusKey (timeTypeValidator c w r now) := by
  unfold timeTypeValidator
  split
  · exact noStatus_httpError _ _ _ h
  · exact noStatus_callHandler _ _ h

theorem noStatus_discreteTypeValidator (c : Client) (w : ResponseWriter) (r : Request)
    (h : noStatusKey w) : noStatusKey (discreteTypeValidator c w r).1 := by
  unfold discreteTypeValidator
  dsimp only
  split
  · exact noStatus_httpError _ _ _ h
  · split
    · exact noStatus_httpError _ _ _ h
    · split
      · exact noStatus_httpError _ _ _ h
      · split
        · exact noStatus_httpError _ _ _ h
        · split
          · exact noStatus_httpError _ _ _ h
          · split
            · split
              · exact noStatus_httpError _ _ _ (noStatus_httpError _ _ _ h)
              · exact noStatus_httpError _ _ _ h
            · split
              · exact noStatus_callHandler _ _ (noStatus_setHeader _ "Light-Auth-Invoice" _
                  (by decide) (noStatus_httpError _ _ _ h))
              · exact noStatus_callHandler _ _ (noStatus_setHeader _ "Light-Auth-Invoice" _
                  (by decide) h)

/-- C1 (code bug): on every terminating run of the middleware — configured
route or not, every validator outcome — the response headers never contain
`Light-Auth-Status`; no server code sets that header, although the
repository's own `ReadResponse` parses it on every response and fails
without it. -/
theorem c1_no_status_emitted (store : ServerStore) (r : Request) (newTok : String)
    (now : Int) (node : List (Option AddInvoiceResp)) (fuel : Nat)
    (w : ResponseWriter) (s2 : ServerStore)
    (h : serverMiddleware store r newTok now node fuel = some (w, s2)) :
    noStatusKey w := by
  have hempty : noStatusKey ResponseWriter.empty := rfl
  unfold serverMiddleware at h
  dsimp only at h
  split at h
  · cases h
    exact hempty
  · split at h
    · simp at h
    · split at h
      · cases h
        exact noStatus_httpError _ _ _ (noStatus_writeConstantHeaders _ _ hempty)
      · split at h
        · cases h
          exact noStatus_writeClientHeaders _ _ _ _ (noStatus_writeConstantHeaders _ _ hempty)
        · split at h
          · cases h
            exact noStatus_timeTypeValidator _ _ _ _
              (noStatus_writeClientHeaders _ _ _ _ (noStatus_writeConstantHeaders _ _ hempty))
          · split at h
            · cases h
              exact noStatus_discreteTypeValidator _ _ _
                (noStatus_writeClientHeaders _ _ _ _ (noStatus_writeConstantHeaders _ _ hempty))
            · cases h
              exact noStatus_writeClientHeaders _ _ _ _ (noStatus_writeConstantHeaders _ _ hempty)

theorem c1_no_status_emitted_witness : noStatusKey c1WRun.1 :=
  c1_no_status_emitted c1WStore c1WReq "t0" 7 [] 3 c1WRun.1 c1WRun.2 rfl

/-! ## C4: idempotence of the second settlement, away from time mode -/

theorem settle_idem (i : Invoice) (b : Bytes) : (i.settle b).settle b = i.settle b := rfl

theorem clientsEraseExp_cons (k : String) (c : Client) (l : List (String × Client)) :
    clientsEraseExp ((k, c) :: l) = (k, c.eraseExp) :: clientsEraseExp l := rfl

theorem storeEraseExp_cons (k : String) (rt : Route) (l : ServerStore) :
    storeEraseExp ((k, rt) :: l) =
      (k, { rt with Clients := clientsEraseExp rt.Clients }) :: storeEraseExp l := rfl

theorem settleExtend_time (c : Client) (pr : String) (now : Int) (i : Invoice)
    (hm : c.RouteI.Mode = "time") :
    settleExtendClient c pr now i =
      ({ Token := c.Token,
         ExpirationTime := if now < c.ExpirationTime then
             now + periodOf c.RouteI.Period + (c.ExpirationTime - now)
           else now + periodOf c.RouteI.Period,
         Invoices := aset c.Invoices pr (i.settle []), RouteI := c.RouteI }, true) := by
  unfold settleExtendClient
  dsimp only
  rw [if_pos hm]

theorem settleExtend_nontime (c : Client) (pr : String) (now : Int) (i : Invoice)
    (hm : ¬ c.RouteI.Mode = "time") :
    settleExtendClient c pr now i =
      ({ c with Invoices := aset c.Invoices pr (i.settle []) }, false) := by
  unfold settleExtendClient
  dsimp only
  rw [if_neg hm]

theorem updateInvoiceClients_idem (pr : String) (n1 n2 : Int) (cs : List (String × Client)) :
    clientsEraseExp (updateInvoiceClients (updateInvoiceClients cs pr n1).1 pr n2).1 =
      clientsEraseExp (updateInvoiceClients cs pr n1).1 ∧
    (updateInvoiceClients (updateInvoiceClients cs pr n1).1 pr n2).2 =
      (updateInvoiceClients cs pr n1).2 := by
  induction cs with
  | nil => simp [updateInvoiceClients]
  | cons hd tl ih =>
      obtain ⟨k, c⟩ := hd
      cases hl : alookup c.Invoices pr with
      | none =>
          simp only [updateInvoiceClients, hl]
          simp only [clientsEraseExp_cons]
          exact ⟨by rw [ih.1], ih.2⟩
      | some i =>
          by_cases hm : c.RouteI.Mode = "time"
          · simp [updateInvoiceClients, hl, settleExtend_time, hm, alookup_aset_self,
              settle_idem, aset_aset_same, clientsEraseExp_cons, Client.eraseExp]
          · simp [updateInvoiceClients, hl, settleExtend_nontime, hm, alookup_aset_self,
              settle_idem, aset_aset_same, clientsEraseExp_cons, Client.eraseExp, ih.1, ih.2]

theorem updateInvoiceRoutes_idem (pr : String) (n1 n2 : Int) (s : ServerStore) :
    storeEraseExp (updateInvoiceRoutes (updateInvoiceRoutes s pr n1).1 pr n2).1 =
      storeEraseExp (updateInvoiceRoutes s pr n1).1 ∧
    (updateInvoiceRoutes (updateInvoiceRoutes s pr n1).1 pr n2).2 =
      (updateInvoiceRoutes s pr n1).2 := by
  induction s with
  | nil => simp [updateInvoiceRoutes]
  | cons hd tl ih =>
      obtain ⟨k, rt⟩ := hd
      have hcl := updateInvoiceClients_idem pr n1 n2 rt.Clients
      by_cases hstop : (updateInvoiceClients rt.Clients pr n1).2 = true
      · simp only [updateInvoiceRoutes, hstop, if_true]
        try simp only [updateInvoiceRoutes]
        simp only [hcl.2, hstop, if_true]
        simp [storeEraseExp_cons, hcl.1]
      · simp only [updateInvoiceRoutes, hstop, if_false, Bool.not_eq_true] at *
        try simp only [updateInvoiceRoutes, hstop]
        try simp only [hcl.2, hstop]
        simp [updateInvoiceRoutes, hcl.2, hstop, storeEraseExp_cons, hcl.1, ih.1, ih.2]

theorem updateInvoiceClients_nontime_idem (pr : String) (n1 n2 : Int) :
    ∀ cs : List (String × Client), (∀ kc ∈ cs, kc.2.RouteI.Mode ≠ "time") →
      (updateInvoiceClients cs pr n1).2 = false ∧
      (∀ kc ∈ (updateInvoiceClients cs pr n1).1, kc.2.RouteI.Mode ≠ "time") ∧
      updateInvoiceClients (updateInvoiceClients cs pr n1).1 pr n2 =
        updateInvoiceClients cs pr n1 := by
  intro cs
  induction cs with
  | nil => intro h; simp [updateInvoiceClients]
  | cons hd tl ih =>
      intro h
      obtain ⟨k, c⟩ := hd
      have hc : c.RouteI.Mode ≠ "time" := h (k, c) (by simp)
      have htl := ih (fun kc hkc => h kc (List.mem_cons_of_mem _ hkc))
      cases hl : alookup c.Invoices pr with
      | none =>
          refine ⟨?_, ?_, ?_⟩
          · simp [updateInvoiceClients, hl, htl.1]
          · simp only [updateInvoiceClients, hl]
            intro kc hkc
            rcases List.mem_cons.mp hkc with hkc | hkc
            · subst hkc; exact hc
            · exact htl.2.1 kc hkc
          · simp [updateInvoiceClients, hl, htl.2.2]
      | some i =>
        refine ⟨?_, ?_, ?_⟩
        · simp [updateInvoiceClients, hl, settleExtend_nontime, hc, htl.1]
        · simp only [updateInvoiceClients, hl, settleExtend_nontime c pr n1 i hc]
          simp only [Bool.false_eq_true, if_false]
          intro kc hkc
          rcases List.mem_cons.mp hkc with hkc | hkc
          · subst hkc; exact hc
          · exact htl.2.1 kc hkc
        · simp [updateInvoiceClients, hl, settleExtend_nontime, hc, alookup_aset_self,
            settle_idem, aset_aset_same, htl.2.2, htl.1]

theorem updateInvoiceRoutes_nontime_idem (pr : String) (n1 n2 : Int) :
    ∀ s : ServerStore, AllNonTime s →
      updateInvoiceRoutes (updateInvoiceRoutes s pr n1).1 pr n2 =
        updateInvoiceRoutes s pr n1 := by
  intro s
  induction s with
  | nil => intro h; simp [updateInvoiceRoutes]
  | cons hd tl ih =>
      intro h
      obtain ⟨k, rt⟩ := hd
      have hcr : ∀ kc ∈ rt.Clients, kc.2.RouteI.Mode ≠ "time" := h (k, rt) (by simp)
      have hcl := updateInvoiceClients_nontime_idem pr n1 n2 rt.Clients hcr
      have htl := ih (fun kr hkr => h kr (List.mem_cons_of_mem _ hkr))
      simp only [updateInvoiceRoutes, hcl.1]
      simp only [Bool.false_eq_true, if_false]
      simp only [updateInvoiceRoutes, hcl.2.2, hcl.1]
      simp [htl]

/-- C4 (amended): a second `updateInvoice` with the same payment request is
a no-op on every invoice's fields — `Settled` stays true, `PreImage` stays
the empty pre-image, `Claimed` untouched (the store is unchanged up to the
clients' `ExpirationTime`s) — and when no route is in time mode the second
application changes nothing at all; in time mode each application extends
the matched client's `ExpirationTime` by another period, as the
counterexample exhibits. -/
theorem c4_settle_idempotent_invoices (s : ServerStore) (pr : String) (n1 n2 : Int) :
    storeEraseExp (updateInvoice (updateInvoice s pr n1) pr n2) =
      storeEraseExp (updateInvoice s pr n1) ∧
    (AllNonTime s → updateInvoice (updateInvoice s pr n1) pr n2 = updateInvoice s pr n1) := by
  constructor
  · exact (updateInvoiceRoutes_idem pr n1 n2 s).1
  · intro hnt
    exact congrArg Prod.fst (updateInvoiceRoutes_nontime_idem pr n1 n2 s hnt)

theorem c4_settle_idempotent_invoices_witness :
    storeEraseExp (updateInvoice (updateInvoice c4WStore "inv1" 0) "inv1" 1) =
      storeEraseExp (updateInvoice c4WStore "inv1" 0) ∧
    updateInvoice (updateInvoice c4WStore "inv1" 0) "inv1" 1 =
      updateInvoice c4WStore "inv1" 0 :=
  ⟨(c4_settle_idempotent_invoices c4WStore "inv1" 0 1).1,
   (c4_settle_idempotent_invoices c4WStore "inv1" 0 1).2 (by unfold AllNonTime; decide)⟩

/-! ## C6 (amended): header emission aborts on node failure -/

theorem writeHeaderW_headers (w : ResponseWriter) (code : Int) :
    (writeHeaderW w code).headers = w.headers := by
  unfold writeHeaderW
  split <;> rfl

theorem httpError_headers (w : ResponseWriter) (msg : String) (code : Int) :
    (httpError w msg code).headers =
      aset (aset w.headers "Content-Type" "text/plain; charset=utf-8")
        "X-Content-Type-Options" "nosniff" := by
  unfold httpError setHeader
  dsimp only
  rw [writeHeaderW_headers]

theorem httpError_headers_other (w : ResponseWriter) (msg : String) (code : Int) (k : String)
    (h1 : k ≠ "Content-Type") (h2 : k ≠ "X-Content-Type-Options") :
    alookup (httpError w msg code).headers k = alookup w.headers k := by
  rw [httpError_headers, alookup_aset_ne _ _ _ _ (Ne.symm h2),
    alookup_aset_ne _ _ _ _ (Ne.symm h1)]

/-- C6 (amended): when fewer than `MaxInvoices` invoices are unpaid and the
node RPC fails on the first generation call, header emission aborts instead
of tolerating the shortfall: `getUnpayedInvoices` discards the existing
unpaid invoices and reports the error, `writeClientHeaders` answers
`500 "Something went wrong"`, sets neither `Light-Auth-Invoices` nor
`Light-Auth-Token`, and leaves the client unchanged.  (Only per-invoice
persistence failures are tolerated, by skipping that invoice.) -/
theorem c6_node_failure_aborts (c : Client) (rest : List (Option AddInvoiceResp))
    (now : Int) (w : ResponseWriter)
    (h : ((unpayedOf c).length : Int) < c.RouteI.MaxInvoices) :
    writeClientHeaders w c (none :: rest) now =
      (httpError w "Something went wrong" 500, c, true) ∧
    alookup (httpError w "Something went wrong" 500).headers "Light-Auth-Invoices" =
      alookup w.headers "Light-Auth-Invoices" ∧
    alookup (httpError w "Something went wrong" 500).headers "Light-Auth-Token" =
      alookup w.headers "Light-Auth-Token" := by
  refine ⟨?_, httpError_headers_other _ _ _ _ (by decide) (by decide),
    httpError_headers_other _ _ _ _ (by decide) (by decide)⟩
  obtain ⟨m, hm⟩ : ∃ m, (c.RouteI.MaxInvoices - ((unpayedOf c).length : Int)).toNat = m + 1 := by
    refine ⟨(c.RouteI.MaxInvoices - ((unpayedOf c).length : Int)).toNat - 1, ?_⟩
    omega
  unfold writeClientHeaders Client.getUnpayedInvoices Client.generateInvoices
  dsimp only
  rw [if_pos h, hm]
  rfl

theorem c6_node_failure_aborts_witness :
    writeClientHeaders ResponseWriter.empty c6Client [none] 0 =
      (httpError ResponseWriter.empty "Something went wrong" 500, c6Client, true) ∧
    alookup (httpError ResponseWriter.empty "Something went wrong" 500).headers
        "Light-Auth-Invoices" =
      alookup ResponseWriter.empty.headers "Light-Auth-Invoices" ∧
    alookup (httpError ResponseWriter.empty "Something went wrong" 500).headers
        "Light-Auth-Token" =
      alookup ResponseWriter.empty.headers "Light-Auth-Token" :=
  c6_node_failure_aborts c6Client [] 0 ResponseWriter.empty (by decide)

/-! ## C7 (amended): the hash property holds on the client side -/

theorem hexDigit_inj : ∀ a < 16, ∀ b < 16, hexDigit a = hexDigit b → a = b := by decide

theorem hexEncode_inj (b1 : Bytes) : ∀ b2 : Bytes, (∀ x ∈ b1, x < 256) →
    (∀ x ∈ b2, x < 256) → hexEncode b1 = hexEncode b2 → b1 = b2 := by
  induction b1 with
  | nil =>
      intro b2 _ _ h
      cases b2 with
      | nil => rfl
      | cons y l2 =>
          have hd : (hexEncode ([] : Bytes)).data = (hexEncode (y :: l2)).data := by rw [h]
          simp [hexEncode] at hd
  | cons x l1 ih =>
      intro b2 hb1 hb2 h
      cases b2 with
      | nil =>
          have hd : (hexEncode (x :: l1)).data = (hexEncode ([] : Bytes)).data := by rw [h]
          simp [hexEncode] at hd
      | cons y l2 =>
          have hd : (hexEncode (x :: l1)).data = (hexEncode (y :: l2)).data := by rw [h]
          simp only [hexEncode, List.foldr_cons, List.cons.injEq] at hd
          obtain ⟨h1, h2, h3⟩ := hd
          have hx := hb1 x (by simp)
          have hy := hb2 y (by simp)
          have e1 : (x / 16) % 16 = (y / 16) % 16 :=
            hexDigit_inj _ (by omega) _ (by omega) h1
          have e2 : x % 16 = y % 16 := hexDigit_inj _ (by omega) _ (by omega) h2
          have hxy : x = y := by omega
          subst hxy
          have htl : l1 = l2 :=
            ih l2 (fun z hz => hb1 z (List.mem_cons_of_mem _ hz))
              (fun z hz => hb2 z (List.mem_cons_of_mem _ hz)) (congrArg String.mk h3)
          rw [htl]

theorem wordToBytes_lt (w : Nat) : ∀ x ∈ wordToBytes w, x < 256 := by
  intro x hx
  simp only [wordToBytes, List.mem_cons, List.not_mem_nil, or_false] at hx
  rcases hx with h | h | h | h <;> subst h <;> omega

theorem sha256_lt (msg : Bytes) : ∀ x ∈ sha256 msg, x < 256 := by
  intro x hx
  unfold sha256 at hx
  rw [List.mem_flatten] at hx
  obtain ⟨l, hl, hxl⟩ := hx
  rw [List.mem_map] at hl
  obtain ⟨w, _, rfl⟩ := hl
  exact wordToBytes_lt w x hxl

theorem confirmInvoiceSettled_preimage_ok (pre : Bytes) (now : Int) :
    ∀ store : ClientStore,
      (∀ kp ∈ store, WellKeyed kp.2.Invoices) →
      (∀ kp ∈ store, MapPreOK kp.2.Invoices) →
      ∀ kp ∈ confirmInvoiceSettled store pre now, MapPreOK kp.2.Invoices := by
  intro store
  induction store with
  | nil =>
      intro _ _ kp hkp
      simp [confirmInvoiceSettled] at hkp
  | cons hd tl ih =>
      intro hwk hok kp hkp
      obtain ⟨k0, p0⟩ := hd
      cases hl : alookup p0.Invoices (hexEncode (sha256 pre)) with
      | none =>
          simp only [confirmInvoiceSettled, hl] at hkp
          rcases List.mem_cons.mp hkp with h | h
          · subst h
            exact hok (k0, p0) (by simp)
          · exact ih (fun q hq => hwk q (List.mem_cons_of_mem _ hq))
              (fun q hq => hok q (List.mem_cons_of_mem _ hq)) kp h
      | some i =>
          simp only [confirmInvoiceSettled, hl] at hkp
          rcases List.mem_cons.mp hkp with h | h
          · subst h
            intro k2 i2 hlk
            rw [(updateBalance_frame _ now).2.2] at hlk
            rcases alookup_aset_cases _ _ _ _ _ hlk with ⟨hk2, hi2⟩ | hold
            · subst hi2
              intro q hq
              have hqe : q = pre := by
                have hsp : some pre = some q := by simpa [Invoice.settle] using hq
                exact (Option.some.inj hsp).symm
              rw [hqe]
              have hw := hwk (k0, p0) (by simp) _ _ hl
              have heq := hexEncode_inj (sha256 pre) i.PaymentHash (sha256_lt pre) hw.2 hw.1
              simpa [Invoice.settle] using heq
            · exact hok (k0, p0) (by simp) _ _ hold
          · exact hok kp (List.mem_cons_of_mem _ h)

/-- C7 (amended): the hash invariant `SHA-256(PreImage) = PaymentHash` is
maintained by the client-side reconciler — `confirmInvoiceSettled` stores
the streamed pre-image exactly on the invoice filed under the hex of its
SHA-256, so for maps keyed by the invoices' own payment hashes the property
is preserved — while the server-side reconciler settles with an EMPTY
pre-image: `updateInvoice`'s per-client step leaves `PreImage = some []` on
the matched invoice, so the hash property fails there (see the
counterexample) whenever the payment hash is genuine. -/
theorem c7_hash_invariant_client_side :
    (∀ (store : ClientStore) (pre : Bytes) (now : Int),
      (∀ kp ∈ store, WellKeyed kp.2.Invoices) →
      (∀ kp ∈ store, MapPreOK kp.2.Invoices) →
      ∀ kp ∈ confirmInvoiceSettled store pre now, MapPreOK kp.2.Invoices) ∧
    (∀ (c : Client) (pr : String) (now : Int) (i : Invoice),
      alookup ((settleExtendClient c pr now i).1).Invoices pr = some (i.settle []) ∧
      (i.settle []).PreImage = some []) := by
  refine ⟨fun store pre now => confirmInvoiceSettled_preimage_ok pre now store, ?_⟩
  intro c pr now i
  refine ⟨?_, rfl⟩
  by_cases hm : c.RouteI.Mode = "time"
  · rw [settleExtend_time c pr now i hm]
    exact alookup_aset_self _ _ _
  · rw [settleExtend_nontime c pr now i hm]
    exact alookup_aset_self _ _ _

theorem c7_hash_invariant_client_side_witness :
    sha256 [97] = (c7WInvoice.settle [97]).PaymentHash ∧
    alookup ((settleExtendClient c7Client "inv1" 0 c7Invoice).1).Invoices "inv1" =
      some (c7Invoice.settle []) ∧
    (c7Invoice.settle []).PreImage = some [] := by
  refine ⟨?_, c7_hash_invariant_client_side.2 c7Client "inv1" 0 c7Invoice⟩
  have hwk : ∀ kp ∈ [("h/p", c7WPath)], WellKeyed kp.2.Invoices := by
    intro kp hkp
    rcases List.mem_singleton.mp hkp with rfl
    intro k i hki
    simp only [c7WPath, alookup] at hki
    split at hki
    · rename_i hcond
      cases hki
      exact ⟨hcond.symm, sha256_lt [97]⟩
    · cases hki
  have hok : ∀ kp ∈ [("h/p", c7WPath)], MapPreOK kp.2.Invoices := by
    intro kp hkp
    rcases List.mem_singleton.mp hkp with rfl
    intro k i hki
    simp only [c7WPath, alookup] at hki
    split at hki
    · cases hki
      intro q hq
      cases hq
    · cases hki
  have hrun := c7_hash_invariant_client_side.1 [("h/p", c7WPath)] [97] 0 hwk hok
  have hmem : ("h/p", c7WPathUpdated) ∈ confirmInvoiceSettled [("h/p", c7WPath)] [97] 0 := by
    decide
  have hmap := hrun _ hmem
  have hlk : alookup c7WPathUpdated.Invoices (hexEncode (sha256 [97])) =
      some (c7WInvoice.settle [97]) := rfl
  exact hmap _ _ hlk [97] rfl

/-! ## C3 (amended): Claimed ⇒ Settled, server side and guarded client side -/

theorem discreteTypeValidator_inv (c : Client) (w : ResponseWriter) (r : Request)
    (h : InvariantCS c.Invoices) : InvariantCS (discreteTypeValidator c w r).2.Invoices := by
  unfold discreteTypeValidator
  dsimp only
  split
  · exact h
  · split
    · exact h
    · split
      · exact h
      · split
        · exact h
        · split
          · exact h
          · split
            · exact h
            · rename_i hsettled
              intro k2 i2 hlk hcl
              rcases alookup_aset_cases _ _ _ _ _ hlk with ⟨hk2, hi2⟩ | hold
              · subst hi2
                simpa [Invoice.claim, Invoice.isSettled] using hsettled
              · exact h _ _ hold hcl

theorem invoicesFromJSONData_claimed_false (d : String → Option String) (fee : Int) :
    ∀ (l : List JSONInvoice) (m : List (String × Invoice)),
      (∀ kv ∈ m, kv.2.Claimed = false) →
      ∀ kv ∈ invoicesFromJSONData d fee l m, kv.2.Claimed = false := by
  intro l
  induction l with
  | nil => intro m hm; simpa [invoicesFromJSONData] using hm
  | cons v rest ih =>
      intro m hm kv hkv
      rw [invoicesFromJSONData] at hkv
      split at hkv
      · exact ih m hm kv hkv
      · split at hkv
        · exact ih m hm kv hkv
        · refine ih _ ?_ kv hkv
          intro kv2 hkv2
          rcases mem_aset _ _ _ _ hkv2 with h2 | h2
          · rw [h2]
          · exact hm kv2 h2

theorem harvestLoop_inv (d : String → Option String) :
    ∀ (src pinvs res : List (String × Invoice)),
      harvestLoop d pinvs src = some res →
      InvariantCS pinvs → (∀ kv ∈ src, kv.2.Claimed = false) →
      InvariantCS res := by
  intro src
  induction src with
  | nil =>
      intro pinvs res hres hinv _
      rw [harvestLoop] at hres
      cases hres
      exact hinv
  | cons hd rest ih =>
      intro pinvs res hres hinv hsrc
      obtain ⟨k0, v⟩ := hd
      rw [harvestLoop] at hres
      split at hres
      · cases hres
      · split at hres
        · exact ih _ _ hres hinv (fun kv hkv => hsrc kv (List.mem_cons_of_mem _ hkv))
        · refine ih _ _ hres ?_ (fun kv hkv => hsrc kv (List.mem_cons_of_mem _ hkv))
          intro k2 i2 hlk hcl
          rcases alookup_aset_cases _ _ _ _ _ hlk with ⟨hk2, hi2⟩ | hold
          · have hhd : v.Claimed = false := hsrc (k0, v) (by simp)
            rw [hi2, hhd] at hcl
            cases hcl
          · exact hinv _ _ hold hcl

theorem getInvoicesFromResponse_claimed_false (d : String → Option String)
    (h : List (String × String)) (invs : List (String × Invoice))
    (heq : getInvoicesFromResponse d h = some invs) :
    ∀ kv ∈ invs, kv.2.Claimed = false := by
  unfold getInvoicesFromResponse at heq
  cases hfee : parseIntGo (readHeader h "Light-Auth-Fee") with
  | none => simp [hfee] at heq
  | some fee =>
      cases hjson : parseInvoicesJSON (readHeader h "Light-Auth-Invoices") with
      | none => simp [hfee, hjson] at heq
      | some jsonData =>
          simp only [hfee, hjson, Option.bind_eq_bind, Option.some_bind, Option.pure_def,
            Option.some.injEq] at heq
          subst heq
          exact invoicesFromJSONData_claimed_false d fee jsonData [] (by simp)

theorem readResponse_inv (store : ClientStore) (u : String) (resp : Response)
    (decodePay : String → Option String)
    (hstore : ∀ u2 p2, alookup store u2 = some p2 → InvariantCS p2.Invoices)
    (hsettled : ∀ p pinvs k i, alookup store u = some p →
      harvestLoop decodePay p.Invoices
          ((getInvoicesFromResponse decodePay resp.Headers).getD []) = some pinvs →
      findClaimedInvoice pinvs (readHeader resp.Headers "Light-Auth-Invoice") = some (k, i) →
      i.Settled = true) :
    ∀ u2 p2, alookup (ReadResponse store u resp decodePay).2 u2 = some p2 →
      InvariantCS p2.Invoices := by
  unfold ReadResponse
  dsimp only
  split
  · exact hstore
  · rename_i p hp
    split
    · exact hstore
    · split
      · exact hstore
      · rename_i invs hinvs
        split
        · exact hstore
        · rename_i pinvs hpinvs
          have hclaimedfalse : ∀ kv ∈ invs, kv.2.Claimed = false :=
            getInvoicesFromResponse_claimed_false decodePay resp.Headers invs hinvs
          have hpinv : InvariantCS pinvs :=
            harvestLoop_inv _ _ _ _ hpinvs (hstore u p hp) hclaimedfalse
          have hpres : ∀ u2 p2, alookup (aset store u { p with Invoices := pinvs }) u2 =
              some p2 → InvariantCS p2.Invoices := by
            intro u2 p2 hlk
            rcases alookup_aset_cases _ _ _ _ _ hlk with ⟨hu2, hp2⟩ | hold
            · subst hp2
              exact hpinv
            · exact hstore _ _ hold
          split
          · split
            · split
              · exact hpres
              · intro u2 p2 hlk
                rcases alookup_aset_cases _ _ _ _ _ hlk with ⟨hu2, hp2⟩ | hold
                · subst hp2
                  exact hpinv
                · exact hpres _ _ hold
            · split
              · exact hpres
              · rename_i k1 i1 hkv
                intro u2 p2 hlk
                rcases alookup_aset_cases _ _ _ _ _ hlk with ⟨hu2, hp2⟩ | hold
                · subst hp2
                  intro k2 i2 hlk2 hcl
                  rcases alookup_aset_cases _ _ _ _ _ hlk2 with ⟨hk2, hi2⟩ | hold2
                  · subst hi2
                    have hs : i1.Settled = true := by
                      refine hsettled p pinvs k1 i1 hp ?_ ?_
                      · rw [hinvs]
                        exact hpinvs
                      · exact hkv
                    simpa [Invoice.claim] using hs
                  · exact hpinv _ _ hold2 hcl
                · exact hpres _ _ hold
          · split
            · exact hpres
            · split
              · exact hpres
              · split
                · exact hpres
                · split
                  · exact hpres
                  · exact hpres

/-- C3 (amended): the server-side claim step preserves `Claimed ⇒ Settled`
(it claims only after the settled check), and no operation clears `Settled`;
the client's `ReadResponse`, however, claims the invoice matching the echoed
`Light-Auth-Invoice` header without consulting its local `Settled` flag, so
on the client the invariant is preserved exactly when the matched invoice is
already locally settled — unconditionally it can fail, as the
counterexample shows. -/
theorem c3_claimed_implies_settled_amended :
    (∀ (c : Client) (w : ResponseWriter) (r : Request), InvariantCS c.Invoices →
      InvariantCS (discreteTypeValidator c w r).2.Invoices) ∧
    (∀ (store : ClientStore) (u : String) (resp : Response)
      (decodePay : String → Option String),
      (∀ u2 p2, alookup store u2 = some p2 → InvariantCS p2.Invoices) →
      (∀ p pinvs k i, alookup store u = some p →
        harvestLoop decodePay p.Invoices
            ((getInvoicesFromResponse decodePay resp.Headers).getD []) = some pinvs →
        findClaimedInvoice pinvs (readHeader resp.Headers "Light-Auth-Invoice") =
          some (k, i) → i.Settled = true) →
      ∀ u2 p2, alookup (ReadResponse store u resp decodePay).2 u2 = some p2 →
        InvariantCS p2.Invoices) :=
  ⟨discreteTypeValidator_inv, readResponse_inv⟩

theorem c3_claimed_implies_settled_amended_witness :
    InvariantCS (discreteTypeValidator c2Client ResponseWriter.empty
      { Method := "GET", URLPath := "/x", Headers := [] }).2.Invoices ∧
    InvariantCS c3WResultPath.Invoices := by
  constructor
  · refine c3_claimed_implies_settled_amended.1 c2Client ResponseWriter.empty _ ?_
    intro k i hki hcl
    simp only [c2Client, alookup] at hki
    split at hki
    · cases hki
      rfl
    · cases hki
  · refine c3_claimed_implies_settled_amended.2 c3WStore "h/p" c3Resp (fun _ => none)
      ?_ ?_ "h/p" c3WResultPath ?_
    · intro u2 p2 hlk
      simp only [c3WStore, alookup] at hlk
      split at hlk
      · cases hlk
        intro k i hki hcl
        simp only [c3WPath, alookup] at hki
        split at hki
        · cases hki
          rfl
        · cases hki
      · cases hlk
    · intro p pinvs k i h1 h2 h3
      rw [show alookup c3WStore "h/p" = some c3WPath from rfl] at h1
      cases h1
      rw [show harvestLoop (fun _ => none) c3WPath.Invoices
          ((getInvoicesFromResponse (fun _ => none) c3Resp.Headers).getD []) =
          some c3WPath.Invoices from rfl] at h2
      cases h2
      rw [show findClaimedInvoice c3WPath.Invoices
          (readHeader c3Resp.Headers "Light-Auth-Invoice") =
          some ("k1", c3WInvoice) from rfl] at h3
      cases h3
      rfl
    · decide

end Lightauth
